import Mathlib

/-!
Verification of the Network-Alignment-Scorer pipeline.

Shallow embedding of the core pipeline of the repository: the mapping-file
parser `NetworkAlignmentScorer.get_mapping`, the GO-annotation builder
`NetworkAlignmentScorer.get_go_terms`, the per-pair scorer
`NetworkAlignmentScorer.compute_score` and the aggregate entry point
`NetworkAlignmentScorer.score_alignment` (all from
`src/network_alignment_scorer/scorer.py`), together with
`JaccardSimilarity.calculate` and `AlignmentMetrics.calculate_alignment_score`
from `src/network_alignment_scorer/utils/metrics.py`.

Modelling conventions:
* a text file is a `List String` of its lines (newlines stripped uniformly);
* Python `float` arithmetic is modelled over `ℚ` (every equation proved here
  involves only values on which the two agree: sums, exact ratios, zero tests);
* Python dictionaries are association lists where a later insert shadows an
  earlier binding and lookup returns the most recent one;
* a Python function that can raise (IndexError on a short line, NameError on an
  unbound local, ZeroDivisionError) is `Option`-valued, `none` being the raise.
-/

set_option autoImplicit false

namespace NetAlign

/-- The characters Python `str.strip()` and `str.split()` treat as whitespace. -/
def pyWhite (c : Char) : Bool :=
  c == ' ' || c == '\t' || c == '\n' || c == '\r' || c == '\x0b' || c == '\x0c'

/-- Split a character list at every whitespace character (empty chunks kept). -/
def chunks (l : List Char) : List (List Char) :=
  l.foldr (fun c acc =>
    if pyWhite c then [] :: acc
    else
      match acc with
      | [] => [[c]]
      | t :: ts => (c :: t) :: ts) []

/-- Python `line.strip().split()`: tokenise on whitespace runs, dropping empty
tokens (leading/trailing whitespace therefore contributes nothing). -/
def pySplit (s : String) : List String :=
  ((chunks s.toList).filter (fun t => !t.isEmpty)).map (fun t => String.mk t)

/-- The literal prefix `GO:` marking a GO term token. -/
def goPre : String := "GO:"

/-- The comment marker `!` of GO files. -/
def commentMark : String := "!"

/-- The comment marker `#` recognised by `score_alignment`'s total-pairs count. -/
def hashMark : String := "#"

/-- Whether `p` is a prefix of `s`, on the underlying character lists (Python
`s.startswith(p)`). -/
def strStarts (p s : String) : Bool := p.toList.isPrefixOf s.toList

/-- The character set of the argument of `item.strip("GO:")`. -/
def goChars : List Char := ['G', 'O', ':']

/-- Python `item.strip("GO:")`: remove the leading and trailing characters that
are drawn from the set G, O, `:` (str.strip treats its argument as a character
set, not as a prefix; on a well-formed token `GO:NNNN` this leaves `NNNN`). -/
def pyStripGO (s : String) : String :=
  String.mk (((s.toList.dropWhile (fun c => goChars.contains c)).reverse.dropWhile
    (fun c => goChars.contains c)).reverse)

/-- A Python `dict` from strings to strings: association list, most recent
binding first, so that `dictInsert` has Python's overwrite semantics under
`dictLookup`. -/
abbrev Dict := List (String × String)

/-- Lookup `d[k]` as an `Option` (also `k in d.keys()` via `isSome`). -/
def dictLookup (d : Dict) (k : String) : Option String :=
  (d.find? (fun p => decide (p.1 = k))).map (fun p => p.2)

/-- Insertion `d.update(\x7bk: v\x7d)`: the new binding shadows any earlier one. -/
def dictInsert (d : Dict) (k v : String) : Dict := (k, v) :: d

/-- The `go_dict` built by `get_go_terms`: canonical identifier to set of GO
terms, keys unique. -/
abbrev GoDict := List (String × Finset String)

/-- Lookup `go_dict.get(k)` / `k in go_dict`. -/
def goLookup (gd : GoDict) (k : String) : Option (Finset String) :=
  (gd.find? (fun p => decide (p.1 = k))).map (fun p => p.2)

/-- The update step of `get_go_terms`: `go_dict[key].add(value)` when the key is
present, `go_dict[key] = \x7bvalue\x7d` otherwise. -/
def goUpdate (gd : GoDict) (k v : String) : GoDict :=
  if (gd.find? (fun p => decide (p.1 = k))).isSome then
    gd.map (fun p => if p.1 = k then (p.1, insert v p.2) else p)
  else gd ++ [(k, ({v} : Finset String))]

/-- Apply `f` to the dictionary at position `p` of `mapping_list` (in the source
the position is always in range, courtesy of the token-count check). -/
def setAt : List Dict → Nat → (Dict → Dict) → List Dict
  | [], _, _ => []
  | d :: ds, 0, f => f d :: ds
  | d :: ds, p + 1, f => d :: setAt ds p f

/-- The `for key in list(range(1, len(x)))` loop of `get_mapping`: store
`x[key] -> x[0]` into dictionary `key - 1` for every key index. -/
def fillFold (x : List String) (value : String) (ml : List Dict) : List Dict :=
  (List.range' 1 (x.length - 1)).foldl
    (fun ml i => setAt ml (i - 1) (fun d => dictInsert d (x.getD i ("")) value)) ml

/-- One iteration of the `for line in f` loop of
`NetworkAlignmentScorer.get_mapping`: a line equal to the header is skipped; a
line whose token count equals the header's token count stores, for each key
index 1..len(x)-1, the binding x[key] -> x[0] into dictionary key-1; any other
token count contributes nothing. `none` models the IndexError of `value = x[0]`
on a whitespace-only line. -/
def mapLine (header : String) (ml : List Dict) (line : String) : Option (List Dict) :=
  if line = header then some ml
  else
    let x := pySplit line
    match x with
    | [] => none
    | value :: _ =>
      if x.length = (pySplit header).length then some (fillFold x value ml)
      else some ml

/-- The loop of `get_mapping` over the non-header lines, starting from
`len(header tokens) - 1` empty dictionaries. -/
def getMappingLines (header : String) (lines : List String) : Option (List Dict) :=
  lines.foldlM (mapLine header) (List.replicate ((pySplit header).length - 1) ([] : Dict))

/-- Function `NetworkAlignmentScorer.get_mapping` on file contents: the first line is the
header (an empty file reads as an empty header, yielding no dictionaries). -/
def getMapping (content : List String) : Option (List Dict) :=
  getMappingLines (content.headD ("")) content.tail

/-- The `for item in x` loop of `get_go_terms`: `value` is overwritten by each
token carrying the `GO:` prefix, so the last such token on the line wins;
`prev` is the binding carried over from earlier lines (Python locals persist
across iterations), `none` while still unbound. -/
def extractValue (prev : Option String) (x : List String) : Option String :=
  x.foldl (fun v t => if strStarts goPre t then some (pyStripGO t) else v) prev

/-- Expression `mapping_list[mapping_list.index(d)][query]`: `list.index` returns the first
dictionary equal to `d`; since equal dictionaries agree at `query` the value
retrieved is `d[query]` in every case. -/
def indexLookup (ml : List Dict) (d : Dict) (q : String) : Option String :=
  match ml.find? (fun e => decide (e = d)) with
  | some e => dictLookup e q
  | none => none

/-- One step of the dictionary-scanning loop of `get_go_terms`. -/
def recordStep (ml : List Dict) (q : String) (value : Option String)
    (gd : GoDict) (d : Dict) : Option GoDict :=
  if (dictLookup d q).isSome then
    match indexLookup ml d q with
    | some key =>
      match value with
      | some v => some (goUpdate gd key v)
      | none => none
    | none => none
  else some gd

/-- The `for d in mapping_list` loop of `get_go_terms` for one line: every
dictionary containing `query` records the line's `value` under its own
canonical identifier (the loop has no break, so later dictionaries are not
shadowed by earlier ones). `none` models the NameError raised when `value` has
never been bound and a record is attempted. -/
def recordQuery (ml : List Dict) (q : String) (value : Option String) (gd : GoDict) :
    Option GoDict :=
  ml.foldlM (recordStep ml q value) gd

/-- One iteration of the line loop of `get_go_terms`: comment lines (leading
`!`) are skipped; otherwise the second token is the query, the GO value is
extracted (possibly keeping the stale one), and the query is recorded. `none`
models the IndexError of `query = x[1]` on a line with fewer than two tokens,
or a NameError inside `recordQuery`. -/
def goLine (ml : List Dict) (st : Option String × GoDict) (line : String) :
    Option (Option String × GoDict) :=
  if strStarts commentMark line then some st
  else
    let x := pySplit line
    match x.get? 1 with
    | none => none
    | some query =>
      let v := extractValue st.1 x
      (recordQuery ml query v st.2).map (fun gd => (v, gd))

/-- Function `NetworkAlignmentScorer.get_go_terms` on file contents. -/
def getGoTerms (ml : List Dict) (lines : List String) : Option GoDict :=
  (lines.foldlM (goLine ml) ((none : Option String), ([] : GoDict))).map (fun st => st.2)

/-- The running counters of `compute_score`. -/
structure ScoreState where
  u1 : Nat
  u2 : Nat
  score : ℚ
deriving DecidableEq

/-- GO-term resolution of `compute_score` for one protein: the first species'
dictionary is consulted first, the second only on a miss. -/
def resolveGo (d1 d2 : GoDict) (p : String) : Option (Finset String) :=
  match goLookup d1 p with
  | some g => some g
  | none => goLookup d2 p

/-- One iteration of the line loop of `NetworkAlignmentScorer.compute_score`:
protein1 is resolved first; on failure `unmappable_one` is incremented and the
line is abandoned (`continue`) without touching protein2; then protein2
symmetrically with `unmappable_two`; when both resolve, the Jaccard ratio of
the two sets is added to the running score. `none` models the IndexError on a
line with too few tokens and the ZeroDivisionError when both sets are empty. -/
def alignLine (d1 d2 : GoDict) (st : ScoreState) (line : String) : Option ScoreState :=
  let x := pySplit line
  match x.get? 0 with
  | none => none
  | some p1 =>
    match resolveGo d1 d2 p1 with
    | none => some { st with u1 := st.u1 + 1 }
    | some g1 =>
      match x.get? 1 with
      | none => none
      | some p2 =>
        match resolveGo d1 d2 p2 with
        | none => some { st with u2 := st.u2 + 1 }
        | some g2 =>
          if (g1 ∪ g2).card = 0 then none
          else some { st with
            score := st.score + ((g1 ∩ g2).card : ℚ) / (((g1 ∪ g2).card : ℚ)) }

/-- Function `NetworkAlignmentScorer.compute_score` on file contents. -/
def computeScore (d1 d2 : GoDict) (lines : List String) : Option ScoreState :=
  lines.foldlM (alignLine d1 d2) ⟨0, 0, 0⟩

/-- The results dictionary built by `NetworkAlignmentScorer.score_alignment`. -/
structure RunResults where
  total_pairs : Nat
  scored_pairs : Int
  unmappable_1 : Nat
  unmappable_2 : Nat
  total_score : ℚ
  mean_score : ℚ
  coverage : ℚ
deriving DecidableEq

/-- The `total_pairs` count of `score_alignment`: lines that are non-empty
after stripping and whose raw text does not begin with `#`. -/
def countTotalPairs (lines : List String) : Nat :=
  lines.countP (fun l => !(pySplit l).isEmpty && !(strStarts hashMark l))

/-- Function `NetworkAlignmentScorer.score_alignment` on the five file contents, in the
source's order (mapping tables, then GO dictionaries, then the score).
`scored_pairs` is an `Int`: the source computes it as
`total_pairs - unmappable_1 - unmappable_2`, and `compute_score` counts lines
that the `total_pairs` count excludes, so the difference can be negative. -/
def scoreAlignment (alignmentLines go1 go2 map1 map2 : List String) :
    Option RunResults := do
  let ml1 ← getMapping map1
  let ml2 ← getMapping map2
  let gd1 ← getGoTerms ml1 go1
  let gd2 ← getGoTerms ml2 go2
  let st ← computeScore gd1 gd2 alignmentLines
  let tp := countTotalPairs alignmentLines
  let sp : Int := (tp : Int) - (st.u1 : Int) - (st.u2 : Int)
  some {
    total_pairs := tp
    scored_pairs := sp
    unmappable_1 := st.u1
    unmappable_2 := st.u2
    total_score := st.score
    mean_score := if sp > 0 then st.score / ((sp : ℚ)) else 0
    coverage := if tp > 0 then ((sp : ℚ)) / ((tp : ℚ)) else 0 }

/-- Function `JaccardSimilarity.calculate` from utils/metrics.py: 1.0 when both sets are
empty, 0.0 when at least one (hence, at that point, exactly one) is empty,
otherwise intersection over union with a defensive zero-union guard. -/
def jaccardCalculate (s t : Finset String) : ℚ :=
  if s = ∅ ∧ t = ∅ then 1
  else if s = ∅ ∨ t = ∅ then 0
  else if 0 < (s ∪ t).card then ((s ∩ t).card : ℚ) / (((s ∪ t).card : ℚ)) else 0

/-- The running state of `AlignmentMetrics.calculate_alignment_score`. -/
structure MetricsState where
  scores : List ℚ
  u1 : Nat
  u2 : Nat
deriving DecidableEq

/-- The aggregate dictionary of `AlignmentMetrics.calculate_alignment_score`
(the fields the statistical claims are about; the float order statistics
median/std/min/max of the source are presentation-only and not modelled). In
the source the empty-scores branch returns a dictionary without a coverage
key; that branch is modelled with coverage 0. -/
structure MetricsResults where
  mean_score : ℚ
  total_pairs : Nat
  scored_pairs : Nat
  unmappable_1 : Nat
  unmappable_2 : Nat
  coverage : ℚ
deriving DecidableEq

/-- Loop body of `AlignmentMetrics.calculate_alignment_score` with the jaccard
metric: protein1 is looked up only in the first species' map and protein2 only
in the second, `.get(..., set())` supplying an empty set on a miss; both
unmappable counters can fire on the same pair; a pair is scored only when both
sets are non-empty. -/
def metricsPair (g1 g2 : GoDict) (st : MetricsState) (pr : String × String) :
    MetricsState :=
  let t1 := (goLookup g1 pr.1).getD ∅
  let t2 := (goLookup g2 pr.2).getD ∅
  let st1 := if t1 = ∅ then { st with u1 := st.u1 + 1 } else st
  let st2 := if t2 = ∅ then { st1 with u2 := st1.u2 + 1 } else st1
  if t1 ≠ ∅ ∧ t2 ≠ ∅ then
    { st2 with scores := st2.scores ++ [jaccardCalculate t1 t2] }
  else st2

/-- Function `AlignmentMetrics.calculate_alignment_score` (jaccard metric): fold the
pair loop, then assemble the aggregate dictionary, with the dedicated
all-zeroes branch when no pair was scored. -/
def calculateAlignmentScore (pairs : List (String × String)) (g1 g2 : GoDict) :
    MetricsResults :=
  let st := pairs.foldl (metricsPair g1 g2) ⟨[], 0, 0⟩
  if st.scores = [] then
    { mean_score := 0
      total_pairs := pairs.length
      scored_pairs := 0
      unmappable_1 := st.u1
      unmappable_2 := st.u2
      coverage := 0 }
  else
    { mean_score := st.scores.sum / ((st.scores.length : ℚ))
      total_pairs := pairs.length
      scored_pairs := st.scores.length
      unmappable_1 := st.u1
      unmappable_2 := st.u2
      coverage := ((st.scores.length : ℚ)) / ((pairs.length : ℚ)) }

/-- The error surface of the pipeline stages: a missing input file, or any
other raised-and-propagated Python exception. -/
inductive StageError where
  | fileNotFound
  | pyError
deriving DecidableEq

/-- A local file system: paths to line lists. -/
abbrev FileSys := List (String × List String)

/-- Content of the file at path `p`, when it exists. -/
def fsLookup (fs : FileSys) (p : String) : Option (List String) :=
  (fs.find? (fun e => decide (e.1 = p))).map (fun e => e.2)

/-- Stage `get_mapping` including its leading `map_file.exists()` guard: a missing
path raises FileNotFoundError before any line is read. -/
def getMappingAt (fs : FileSys) (p : String) : Except StageError (List Dict) :=
  match fsLookup fs p with
  | none => .error .fileNotFound
  | some content =>
    match getMapping content with
    | some ml => .ok ml
    | none => .error .pyError

/-- Stage `get_go_terms` including its leading `go_file.exists()` guard. -/
def getGoTermsAt (fs : FileSys) (ml : List Dict) (p : String) :
    Except StageError GoDict :=
  match fsLookup fs p with
  | none => .error .fileNotFound
  | some content =>
    match getGoTerms ml content with
    | some gd => .ok gd
    | none => .error .pyError

/-- Stage `compute_score` including its leading `alignment_file.exists()` guard. -/
def computeScoreAt (fs : FileSys) (d1 d2 : GoDict) (p : String) :
    Except StageError ScoreState :=
  match fsLookup fs p with
  | none => .error .fileNotFound
  | some content =>
    match computeScore d1 d2 content with
    | some st => .ok st
    | none => .error .pyError

/-- Pipeline `score_alignment` over the file system: the stages run in the source's
order and the first failing stage aborts the whole run. -/
def scoreAlignmentAt (fs : FileSys) (alignmentP go1P go2P map1P map2P : String) :
    Except StageError RunResults := do
  let ml1 ← getMappingAt fs map1P
  let ml2 ← getMappingAt fs map2P
  let gd1 ← getGoTermsAt fs ml1 go1P
  let gd2 ← getGoTermsAt fs ml2 go2P
  let st ← computeScoreAt fs gd1 gd2 alignmentP
  match fsLookup fs alignmentP with
  | none => .error .pyError
  | some alignmentLines =>
    let tp := countTotalPairs alignmentLines
    let sp : Int := (tp : Int) - (st.u1 : Int) - (st.u2 : Int)
    .ok {
      total_pairs := tp
      scored_pairs := sp
      unmappable_1 := st.u1
      unmappable_2 := st.u2
      total_score := st.score
      mean_score := if sp > 0 then st.score / ((sp : ℚ)) else 0
      coverage := if tp > 0 then ((sp : ℚ)) / ((tp : ℚ)) else 0 }

/-! ## Lookup and update lemmas -/

lemma goLookup_cons (a : String × Finset String) (gd : GoDict) (c : String) :
    goLookup (a :: gd) c = if a.1 = c then some a.2 else goLookup gd c := by
  rw [goLookup, List.find?_cons]
  by_cases h : a.1 = c
  · simp [h]
  · simp [h, goLookup]

lemma goLookup_append (gd₁ gd₂ : GoDict) (c : String) :
    goLookup (gd₁ ++ gd₂) c =
      match goLookup gd₁ c with
      | some s => some s
      | none => goLookup gd₂ c := by
  induction gd₁ with
  | nil => rfl
  | cons a gd₁ ih =>
    rw [List.cons_append, goLookup_cons, goLookup_cons]
    by_cases h : a.1 = c
    · simp [h]
    · simp [h, ih]

lemma goLookup_map_insert (gd : GoDict) (k v c : String) :
    goLookup (gd.map (fun p => if p.1 = k then (p.1, insert v p.2) else p)) c
      = if c = k then (goLookup gd k).map (fun s => insert v s)
        else goLookup gd c := by
  induction gd with
  | nil => by_cases h : c = k <;> simp [goLookup, h]
  | cons a gd ih =>
    have hb1 : ((if a.1 = k then (a.1, insert v a.2) else a) :
        String × Finset String).1 = a.1 := by
      split <;> rfl
    by_cases hck : c = k
    · subst hck
      by_cases hac : a.1 = c
      · simp [List.map_cons, goLookup_cons, hb1, hac]
      · simp [List.map_cons, goLookup_cons, hb1, hac, ih]
    · by_cases hac : a.1 = c
      · have hak : ¬ a.1 = k := fun h => hck (hac.symm.trans h)
        simp [List.map_cons, goLookup_cons, hb1, hac, hak, hck]
      · simp [List.map_cons, goLookup_cons, hb1, hac, hck, ih]

lemma goLookup_find?_isSome (gd : GoDict) (k : String) :
    (goLookup gd k).isSome = (gd.find? (fun p => decide (p.1 = k))).isSome := by
  rw [goLookup]
  cases gd.find? (fun p => decide (p.1 = k)) <;> rfl

/-- The characterisation of one dictionary update of `get_go_terms`. -/
lemma goLookup_goUpdate (gd : GoDict) (k v c : String) :
    goLookup (goUpdate gd k v) c =
      if c = k then some (insert v ((goLookup gd k).getD ∅))
      else goLookup gd c := by
  rw [goUpdate]
  by_cases hp : (gd.find? (fun p => decide (p.1 = k))).isSome
  · rw [if_pos hp, goLookup_map_insert]
    by_cases hck : c = k
    · rw [if_pos hck, if_pos hck]
      have : (goLookup gd k).isSome := by rw [goLookup_find?_isSome]; exact hp
      obtain ⟨s, hs⟩ := Option.isSome_iff_exists.mp this
      rw [hs]
      rfl
    · rw [if_neg hck, if_neg hck]
  · rw [if_neg hp, goLookup_append]
    have hk : goLookup gd k = none := by
      cases hgl : goLookup gd k with
      | none => rfl
      | some s =>
        exact absurd (by rw [← goLookup_find?_isSome, hgl]; rfl) hp
    by_cases hck : c = k
    · subst hck
      rw [hk, goLookup_cons]
      simp
    · have hone : goLookup [(k, ({v} : Finset String))] c = none := by
        rw [goLookup_cons, if_neg (fun h => hck h.symm)]
        rfl
      rw [if_neg hck]
      cases hc : goLookup gd c with
      | none => rw [hone]
      | some s => rfl

lemma hasRec_goUpdate_self (gd : GoDict) (k v : String) :
    ∃ s, goLookup (goUpdate gd k v) k = some s ∧ v ∈ s := by
  rw [goLookup_goUpdate, if_pos rfl]
  exact ⟨_, rfl, Finset.mem_insert_self v _⟩

lemma hasRec_goUpdate_mono (gd : GoDict) (k v c w : String)
    (h : ∃ s, goLookup gd c = some s ∧ w ∈ s) :
    ∃ s, goLookup (goUpdate gd k v) c = some s ∧ w ∈ s := by
  obtain ⟨s, hs, hw⟩ := h
  rw [goLookup_goUpdate]
  by_cases hck : c = k
  · subst hck
    rw [if_pos rfl, hs]
    exact ⟨_, rfl, Finset.mem_insert_of_mem hw⟩
  · rw [if_neg hck]
    exact ⟨s, hs, hw⟩

/-- Python `list.index` in `get_go_terms` retrieves, for a dictionary drawn from
`mapping_list`, the same value a direct lookup would. -/
lemma indexLookup_eq {ml : List Dict} {d : Dict} (hd : d ∈ ml) (q : String) :
    indexLookup ml d q = dictLookup d q := by
  induction ml with
  | nil => cases hd
  | cons a ml ih =>
    rcases List.mem_cons.mp hd with h | h
    · rw [indexLookup, List.find?_cons_of_pos _ (by simp [h])]
      rw [h]
    · by_cases ha : a = d
      · rw [indexLookup, List.find?_cons_of_pos _ (by simp [ha])]
        rw [ha]
      · rw [indexLookup, List.find?_cons_of_neg _ (by simp [ha])]
        exact ih h

/-! ## recordStep and its fold -/

lemma recordStep_not_contains {d : Dict} {q : String} (h : dictLookup d q = none)
    (ml : List Dict) (value : Option String) (gd : GoDict) :
    recordStep ml q value gd d = some gd := by
  simp [recordStep, h]

lemma recordStep_contains {ml : List Dict} {d : Dict} {q c : String}
    (hd : d ∈ ml) (hc : dictLookup d q = some c) (v : String) (gd : GoDict) :
    recordStep ml q (some v) gd d = some (goUpdate gd c v) := by
  simp [recordStep, hc, indexLookup_eq hd]

lemma recordStep_contains_none {d : Dict} {q : String}
    (hc : (dictLookup d q).isSome) (ml : List Dict) (gd : GoDict) :
    recordStep ml q none gd d = none := by
  simp only [recordStep, if_pos hc]
  cases indexLookup ml d q <;> rfl

/-- Folding `recordStep` with a bound value always succeeds, only grows the
recorded sets, and leaves the value recorded under the canonical identifier of
every visited dictionary that contains the query. -/
lemma recordFold_some (ml : List Dict) (q v : String) :
    ∀ ds : List Dict, (∀ d ∈ ds, d ∈ ml) → ∀ gd : GoDict,
      ∃ gd', List.foldlM (recordStep ml q (some v)) gd ds = some gd' ∧
        (∀ c w, (∃ s, goLookup gd c = some s ∧ w ∈ s) →
           ∃ s, goLookup gd' c = some s ∧ w ∈ s) ∧
        (∀ d ∈ ds, ∀ c, dictLookup d q = some c →
           ∃ s, goLookup gd' c = some s ∧ v ∈ s) := by
  intro ds
  induction ds with
  | nil =>
    intro _ gd
    exact ⟨gd, rfl, fun c w h => h, by simp⟩
  | cons d ds ih =>
    intro hsub gd
    have hdml : d ∈ ml := hsub d (List.mem_cons_self d ds)
    cases hcd : dictLookup d q with
    | none =>
      obtain ⟨gd', h1, h2, h3⟩ := ih (fun e he => hsub e (List.mem_cons_of_mem d he)) gd
      refine ⟨gd', ?_, h2, ?_⟩
      · rw [List.foldlM_cons, recordStep_not_contains hcd]
        simpa using h1
      · intro e he c hec
        rcases List.mem_cons.mp he with rfl | he'
        · rw [hec] at hcd; cases hcd
        · exact h3 e he' c hec
    | some c₀ =>
      obtain ⟨gd', h1, h2, h3⟩ :=
        ih (fun e he => hsub e (List.mem_cons_of_mem d he)) (goUpdate gd c₀ v)
      refine ⟨gd', ?_, ?_, ?_⟩
      · rw [List.foldlM_cons, recordStep_contains hdml hcd]
        simpa using h1
      · intro c w hw
        exact h2 c w (hasRec_goUpdate_mono _ _ _ _ _ hw)
      · intro e he c hec
        rcases List.mem_cons.mp he with rfl | he'
        · rw [hcd] at hec
          injection hec with hcc
          exact hcc ▸ h2 c₀ v (hasRec_goUpdate_self gd c₀ v)
        · exact h3 e he' c hec

/-- Folding `recordStep` with an unbound value dies on the first dictionary
containing the query (the NameError). -/
lemma recordFold_none (ml : List Dict) (q : String) :
    ∀ ds : List Dict, ∀ gd : GoDict, (∃ d ∈ ds, (dictLookup d q).isSome) →
      List.foldlM (recordStep ml q none) gd ds = none := by
  intro ds
  induction ds with
  | nil =>
    intro gd h
    simp at h
  | cons d ds ih =>
    intro gd h
    by_cases hcd : (dictLookup d q).isSome
    · rw [List.foldlM_cons, recordStep_contains_none hcd]
      rfl
    · have hdq : dictLookup d q = none := Option.not_isSome_iff_eq_none.mp hcd
      rw [List.foldlM_cons, recordStep_not_contains hdq]
      obtain ⟨e, he, hes⟩ := h
      rcases List.mem_cons.mp he with rfl | he'
      · exact absurd hes hcd
      · simpa using ih gd ⟨e, he', hes⟩

/-- Folding `recordStep` over dictionaries none of which contains the query
leaves the GO dictionary untouched. -/
lemma recordFold_skip (ml : List Dict) (q : String) (value : Option String) :
    ∀ ds : List Dict, (∀ d ∈ ds, dictLookup d q = none) → ∀ gd : GoDict,
      List.foldlM (recordStep ml q value) gd ds = some gd := by
  intro ds
  induction ds with
  | nil => intro _ gd; rfl
  | cons d ds ih =>
    intro h gd
    rw [List.foldlM_cons, recordStep_not_contains (h d (List.mem_cons_self d ds))]
    simpa using ih (fun e he => h e (List.mem_cons_of_mem d he)) gd

/-! ## Claim C5: Jaccard similarity edge cases -/

/-- C5: `JaccardSimilarity.calculate` returns 1 when both sets are empty, 0 when
exactly one of them is empty, and intersection-size over union-size otherwise;
in particular it returns 1 on two equal sets. -/
theorem claim_C5 (s t : Finset String) :
    jaccardCalculate s s = 1 ∧
    (s = ∅ → t = ∅ → jaccardCalculate s t = 1) ∧
    ((s = ∅ ∧ t ≠ ∅) ∨ (s ≠ ∅ ∧ t = ∅) → jaccardCalculate s t = 0) ∧
    (s ≠ ∅ → t ≠ ∅ →
      jaccardCalculate s t = ((s ∩ t).card : ℚ) / ((s ∪ t).card : ℚ)) := by
  refine ⟨?_, ?_, ?_, ?_⟩
  · rcases eq_or_ne s ∅ with hs | hs
    · simp [jaccardCalculate, hs]
    · have hpos : 0 < (s ∪ s).card := by
        rw [Finset.union_self]
        exact Finset.card_pos.mpr (Finset.nonempty_iff_ne_empty.mpr hs)
      have h1 : ¬ (s = ∅ ∧ s = ∅) := by simp [hs]
      have h2 : ¬ (s = ∅ ∨ s = ∅) := by simp [hs]
      rw [jaccardCalculate, if_neg h1, if_neg h2, if_pos hpos, Finset.inter_self,
        Finset.union_self]
      exact div_self (by
        exact_mod_cast (Finset.card_pos.mpr (Finset.nonempty_iff_ne_empty.mpr hs)).ne')
  · intro hs ht
    simp [jaccardCalculate, hs, ht]
  · rintro (⟨hs, ht⟩ | ⟨hs, ht⟩) <;> simp [jaccardCalculate, hs, ht]
  · intro hs ht
    have h1 : ¬ (s = ∅ ∧ t = ∅) := by simp [hs]
    have h2 : ¬ (s = ∅ ∨ t = ∅) := by simp [hs, ht]
    have hpos : 0 < (s ∪ t).card := by
      refine Finset.card_pos.mpr ?_
      rcases Finset.nonempty_iff_ne_empty.mpr hs with ⟨a, ha⟩
      exact ⟨a, Finset.mem_union_left _ ha⟩
    rw [jaccardCalculate, if_neg h1, if_neg h2, if_pos hpos]

/-- C5 witness: the four branches evaluated on concrete sets. -/
theorem claim_C5_witness :
    jaccardCalculate ({"a"} : Finset String) ({"a"}) = 1 ∧
    jaccardCalculate (∅ : Finset String) ∅ = 1 ∧
    jaccardCalculate ({"a"} : Finset String) ∅ = 0 ∧
    jaccardCalculate (∅ : Finset String) ({"b"}) = 0 ∧
    jaccardCalculate ({"a", "b"} : Finset String) ({"b", "c"})
      = (((({"a", "b"} : Finset String) ∩ {"b", "c"}).card : ℚ))
        / (((({"a", "b"} : Finset String) ∪ {"b", "c"}).card : ℚ)) :=
  ⟨(claim_C5 {"a"} {"a"}).1,
   (claim_C5 (∅ : Finset String) ∅).2.1 rfl rfl,
   (claim_C5 {"a"} ∅).2.2.1 (Or.inr ⟨by decide, rfl⟩),
   (claim_C5 ∅ {"b"}).2.2.1 (Or.inl ⟨rfl, by decide⟩),
   (claim_C5 {"a", "b"} {"b", "c"}).2.2.2 (by decide) (by decide)⟩

/-! ## Claim C4: only the last GO-prefixed token of a line is retained -/

/-- The GO-extraction loop in closed form: the last GO-prefixed token of the
line wins, and in its absence the carried-over binding survives. -/
lemma extractValue_spec (prev : Option String) (x : List String) :
    extractValue prev x =
      ((x.filter (fun t => strStarts goPre t)).getLast?).elim prev
        (fun t => some (pyStripGO t)) := by
  induction x using List.reverseRecOn with
  | nil => rfl
  | append_singleton xs a ih =>
    have hstep : extractValue prev (xs ++ [a]) =
        (if strStarts goPre a then some (pyStripGO a) else extractValue prev xs) := by
      simp [extractValue, List.foldl_append]
    rw [hstep]
    by_cases hb : strStarts goPre a
    · rw [if_pos hb, List.filter_append]
      simp [hb]
    · rw [if_neg hb, ih, List.filter_append]
      simp [hb]

/-- C4: the GO-extraction loop of `get_go_terms` retains exactly the last
GO-prefixed token of the line (stripped of `GO:` characters) as the value for
that line, whatever binding was carried over, even when the line carries
several GO-prefixed tokens; when the line carries none, the carried-over
binding survives unchanged. -/
theorem claim_C4 (prev : Option String) (x : List String) :
    extractValue prev x =
      ((x.filter (fun t => strStarts goPre t)).getLast?).elim prev
        (fun t => some (pyStripGO t)) :=
  extractValue_spec prev x

/-! ## Claim C2: species-one-first resolution and skip-and-continue policy -/

/-- C2: on an alignment line with tokens `p1 p2 ...`, `compute_score` resolves
`p1` against the first species' GO dictionary first and only on a miss against
the second; when both miss, `unmappable_one` is incremented by exactly one and
nothing else changes (the score is untouched and `p2` is neither looked up nor
counted); when `p1` resolves, `p2` is handled symmetrically with
`unmappable_two`. -/
theorem claim_C2 (d1 d2 : GoDict) (st : ScoreState) (line p1 p2 : String)
    (rest : List String) (hx : pySplit line = p1 :: p2 :: rest) :
    (∀ g, goLookup d1 p1 = some g → resolveGo d1 d2 p1 = some g) ∧
    (goLookup d1 p1 = none → resolveGo d1 d2 p1 = goLookup d2 p1) ∧
    (resolveGo d1 d2 p1 = none →
      alignLine d1 d2 st line = some ⟨st.u1 + 1, st.u2, st.score⟩) ∧
    (∀ g1, resolveGo d1 d2 p1 = some g1 →
      (∀ g, goLookup d1 p2 = some g → resolveGo d1 d2 p2 = some g) ∧
      (goLookup d1 p2 = none → resolveGo d1 d2 p2 = goLookup d2 p2) ∧
      (resolveGo d1 d2 p2 = none →
        alignLine d1 d2 st line = some ⟨st.u1, st.u2 + 1, st.score⟩)) := by
  refine ⟨?_, ?_, ?_, ?_⟩
  · intro g hg
    rw [resolveGo, hg]
  · intro hg
    rw [resolveGo, hg]
  · intro hg
    rw [alignLine]
    simp only [hx, List.get?]
    rw [hg]
  · intro g1 hg1
    refine ⟨?_, ?_, ?_⟩
    · intro g hg
      rw [resolveGo, hg]
    · intro hg
      rw [resolveGo, hg]
    · intro hg2
      rw [alignLine]
      simp only [hx, List.get?]
      rw [hg1, hg2]

/-- C2 witness: a pair whose first protein is in neither dictionary only bumps
`unmappable_one`, and a pair whose first protein resolves but whose second is
in neither dictionary only bumps `unmappable_two`. -/
theorem claim_C2_witness :
    alignLine [("a", ({"1"} : Finset String))] [("b", ({"2"} : Finset String))]
      ⟨0, 0, 0⟩ ("zz ww") = some ⟨1, 0, 0⟩ ∧
    alignLine [("a", ({"1"} : Finset String))] [("b", ({"2"} : Finset String))]
      ⟨0, 0, 0⟩ ("a ww") = some ⟨0, 1, 0⟩ :=
  ⟨(claim_C2 [("a", {"1"})] [("b", {"2"})] ⟨0, 0, 0⟩ ("zz ww") ("zz") ("ww") []
      (by decide)).2.2.1 (by decide),
   ((claim_C2 [("a", {"1"})] [("b", {"2"})] ⟨0, 0, 0⟩ ("a ww") ("a") ("ww") []
      (by decide)).2.2.2 {"1"} (by decide)).2.2 (by decide)⟩

/-! ## Claim C6: every key of a built AnnotationMap has a non-empty term set -/

lemma goUpdate_nonempty {gd : GoDict} (h : ∀ p ∈ gd, p.2.Nonempty) (k v : String) :
    ∀ p ∈ goUpdate gd k v, p.2.Nonempty := by
  intro p hp
  rw [goUpdate] at hp
  split at hp
  · obtain ⟨a, ha, rfl⟩ := List.mem_map.mp hp
    by_cases hak : a.1 = k
    · rw [if_pos hak]
      exact Finset.insert_nonempty _ _
    · rw [if_neg hak]
      exact h a ha
  · rcases List.mem_append.mp hp with hp' | hp'
    · exact h p hp'
    · obtain rfl := List.mem_singleton.mp hp'
      exact Finset.singleton_nonempty v

lemma recordFold_nonempty (ml : List Dict) (q : String) (value : Option String) :
    ∀ (ds : List Dict) (gd gd' : GoDict),
      List.foldlM (recordStep ml q value) gd ds = some gd' →
      (∀ p ∈ gd, p.2.Nonempty) → ∀ p ∈ gd', p.2.Nonempty := by
  intro ds
  induction ds with
  | nil =>
    intro gd gd' h hinv
    injection h with h'
    exact h' ▸ hinv
  | cons d ds ih =>
    intro gd gd' h hinv
    rw [List.foldlM_cons] at h
    cases hstep : recordStep ml q value gd d with
    | none =>
      rw [hstep] at h
      simp at h
    | some gd₁ =>
      rw [hstep] at h
      have hinv₁ : ∀ p ∈ gd₁, p.2.Nonempty := by
        simp only [recordStep] at hstep
        split at hstep
        · split at hstep
          · split at hstep
            · injection hstep with h'
              exact h' ▸ goUpdate_nonempty hinv _ _
            · cases hstep
          · cases hstep
        · injection hstep with h'
          exact h' ▸ hinv
      exact ih gd₁ gd' (by simpa using h) hinv₁

lemma goLine_nonempty (ml : List Dict) (st st' : Option String × GoDict) (line : String)
    (h : goLine ml st line = some st')
    (hinv : ∀ p ∈ st.2, p.2.Nonempty) : ∀ p ∈ st'.2, p.2.Nonempty := by
  simp only [goLine] at h
  split at h
  · injection h with h'
    exact h' ▸ hinv
  · split at h
    · cases h
    · rw [Option.map_eq_some'] at h
      obtain ⟨gd', hrq, hst⟩ := h
      have hne : ∀ p ∈ gd', p.2.Nonempty :=
        recordFold_nonempty ml _ _ ml st.2 gd' hrq hinv
      rw [← hst]
      exact hne

lemma goLinesFold_nonempty (ml : List Dict) :
    ∀ (lines : List String) (st st' : Option String × GoDict),
      List.foldlM (goLine ml) st lines = some st' →
      (∀ p ∈ st.2, p.2.Nonempty) → ∀ p ∈ st'.2, p.2.Nonempty := by
  intro lines
  induction lines with
  | nil =>
    intro st st' h hinv
    injection h with h'
    exact h' ▸ hinv
  | cons l lines ih =>
    intro st st' h hinv
    rw [List.foldlM_cons] at h
    cases hstep : goLine ml st l with
    | none =>
      rw [hstep] at h
      simp at h
    | some st₁ =>
      rw [hstep] at h
      exact ih st₁ st' (by simpa using h) (goLine_nonempty ml st st₁ l hstep hinv)

/-- C6: every key present in a GO dictionary returned by `get_go_terms` maps to
a non-empty set of GO terms: an entry is only ever created as a singleton
together with its first term, and later lines only add terms to an existing
set. -/
theorem claim_C6 (ml : List Dict) (lines : List String) (gd : GoDict)
    (h : getGoTerms ml lines = some gd) : ∀ p ∈ gd, p.2.Nonempty := by
  rw [getGoTerms, Option.map_eq_some'] at h
  obtain ⟨st', hfold, hst⟩ := h
  have hne := goLinesFold_nonempty ml lines ((none : Option String), ([] : GoDict))
    st' hfold (by simp)
  exact hst ▸ hne

/-- C6 witness: a one-line GO file, with the invariant evaluated on the built
dictionary. -/
theorem claim_C6_witness :
    getGoTerms [[("q", "E1")]] [("a q GO:7")] = some [("E1", ({"7"} : Finset String))] ∧
    ∀ p ∈ [(("E1" : String), ({"7"} : Finset String))], p.2.Nonempty :=
  ⟨by decide, claim_C6 [[("q", "E1")]] [("a q GO:7")] [("E1", {"7"})] (by decide)⟩

/-! ## Claim C3: which lookup maps supply the canonical identifier -/

/-- C3 counterexample: with two lookup maps both containing the foreign
identifier `q` under different canonical identifiers, the one-line GO file
records the term under the canonical identifier of BOTH maps, not only under
that of the first map as the claim states: the entry for `E2` (supplied by the
second map) exists, where the claim requires the line to be recorded only
under `E1`. -/
theorem claim_C3_counterexample :
    (getGoTerms [[("q", "E1")], [("q", "E2")]] [("a q GO:7")]).map
      (fun gd => (goLookup gd ("E1"), goLookup gd ("E2")))
      = some (some {"7"}, some {"7"}) ∧
    (some ({"7"} : Finset String)) ≠ none := by
  exact ⟨by decide, by decide⟩

/-- C3 (amended): when `get_go_terms` resolves the foreign identifier of a line
it scans every lookup map; EVERY map containing the identifier supplies its
canonical identifier and the line's GO value is recorded under each of them
(not only the first); when no map contains the identifier the line contributes
no annotation and is skipped without error. -/
theorem claim_C3_amended (ml : List Dict) (q v : String) (gd : GoDict) :
    ((∀ d ∈ ml, dictLookup d q = none) → recordQuery ml q (some v) gd = some gd) ∧
    ∃ gd', recordQuery ml q (some v) gd = some gd' ∧
      ∀ d ∈ ml, ∀ c, dictLookup d q = some c →
        ∃ s, goLookup gd' c = some s ∧ v ∈ s := by
  constructor
  · intro h
    exact recordFold_skip ml q (some v) ml h gd
  · obtain ⟨gd', h1, _, h3⟩ := recordFold_some ml q v ml (fun d hd => hd) gd
    exact ⟨gd', h1, h3⟩

/-- C3 witness: a query contained in no map leaves the dictionary untouched,
and with two containing maps the value is recorded under each canonical
identifier. -/
theorem claim_C3_witness :
    recordQuery [[("zz", "E")]] ("q") (some ("7")) [] = some [] ∧
    ∃ s, goLookup [(("E1" : String), ({"7"} : Finset String)), ("E2", {"7"})] ("E2")
        = some s ∧ ("7" : String) ∈ s := by
  constructor
  · exact (claim_C3_amended [[("zz", "E")]] ("q") ("7") []).1 (by decide)
  · obtain ⟨gd', hq, hrec⟩ :=
      (claim_C3_amended [[("q", "E1")], [("q", "E2")]] ("q") ("7") []).2
    have hv : recordQuery [[("q", "E1")], [("q", "E2")]] ("q") (some ("7")) []
        = some [("E1", {"7"}), ("E2", {"7"})] := by decide
    rw [hv] at hq
    injection hq with hq'
    subst hq'
    exact hrec [("q", "E2")] (by decide) ("E2") (by decide)

/-! ## Claim C10: GO-less lines reuse the stale value or crash -/

/-- Closed form of `goLine` on a non-comment line with at least two tokens. -/
lemma goLine_eq (ml : List Dict) (st : Option String × GoDict) (line : String)
    (t0 q : String) (rest : List String)
    (hcm : strStarts commentMark line = false)
    (hx : pySplit line = t0 :: q :: rest) :
    goLine ml st line =
      (recordQuery ml q (extractValue st.1 (pySplit line)) st.2).map
        (fun gd => (extractValue st.1 (pySplit line), gd)) := by
  simp only [goLine, hcm, Bool.false_eq_true, if_false, hx]
  rfl

/-- C10: a non-comment GO-file line whose query resolves through the mapping
list but which carries no GO-prefixed token is NOT skipped: the resolved
canonical identifiers are annotated with the stale GO value carried over from
the most recent GO-bearing line, and when no such value has ever been bound
the computation fails (NameError) instead of producing a dictionary. -/
theorem claim_C10 (ml : List Dict) (gd : GoDict) (line t0 q v : String)
    (rest : List String)
    (hcm : strStarts commentMark line = false)
    (hx : pySplit line = t0 :: q :: rest)
    (hno : (pySplit line).filter (fun t => strStarts goPre t) = [])
    (hres : ∃ d ∈ ml, (dictLookup d q).isSome) :
    (∃ gd', goLine ml (some v, gd) line = some (some v, gd') ∧
        ∀ d ∈ ml, ∀ c, dictLookup d q = some c →
          ∃ s, goLookup gd' c = some s ∧ v ∈ s) ∧
    goLine ml ((none : Option String), gd) line = none := by
  have hext : ∀ prev : Option String, extractValue prev (pySplit line) = prev := by
    intro prev
    rw [extractValue_spec, hno]
    rfl
  constructor
  · obtain ⟨gd', h1, _, h3⟩ := recordFold_some ml q v ml (fun d hd => hd) gd
    refine ⟨gd', ?_, h3⟩
    rw [goLine_eq ml (some v, gd) line t0 q rest hcm hx]
    rw [hext]
    rw [recordQuery]
    rw [h1]
    rfl
  · rw [goLine_eq ml ((none : Option String), gd) line t0 q rest hcm hx]
    rw [hext]
    rw [recordQuery]
    rw [recordFold_none ml q ml gd hres]
    rfl

/-- C10 witness: with the value still unbound, one GO-less resolvable line
makes the whole `get_go_terms` call fail; with a stale value `7` carried over,
the same line records `7` under the resolved canonical identifier. -/
theorem claim_C10_witness :
    goLine [[("q", "E1")]] ((none : Option String), []) ("b q") = none ∧
    goLine [[("q", "E1")]] (some ("7"), []) ("b q")
      = some (some ("7"), [("E1", ({"7"} : Finset String))]) ∧
    getGoTerms [[("q", "E1")]] [("b q")] = none ∧
    getGoTerms [[("q", "E1")]] [("a q GO:7"), ("b q")]
      = some [("E1", ({"7"} : Finset String))] :=
  ⟨(claim_C10 [[("q", "E1")]] [] ("b q") ("b") ("q") ("7") []
      (by decide) (by decide) (by decide) (by decide)).2,
   by decide, by decide, by decide⟩

/-! ## Claim C1: the accounting invariant of a scoring run -/

/-- A pair both of whose looked-up GO-term sets are empty (each side missing or
empty): such a pair fires both unmappable counters of
`calculate_alignment_score` at once. -/
def bothEmpty (g1 g2 : GoDict) (pr : String × String) : Bool :=
  decide ((goLookup g1 pr.1).getD ∅ = ∅) && decide ((goLookup g2 pr.2).getD ∅ = ∅)

lemma metricsPair_count (g1 g2 : GoDict) (st : MetricsState) (pr : String × String) :
    (metricsPair g1 g2 st pr).scores.length + (metricsPair g1 g2 st pr).u1
        + (metricsPair g1 g2 st pr).u2
      = st.scores.length + st.u1 + st.u2 + 1
        + (if bothEmpty g1 g2 pr then 1 else 0) := by
  by_cases h1 : (goLookup g1 pr.1).getD ∅ = ∅ <;>
    by_cases h2 : (goLookup g2 pr.2).getD ∅ = ∅ <;>
      simp [metricsPair, bothEmpty, h1, h2] <;> omega

lemma metricsFold_count (g1 g2 : GoDict) :
    ∀ (pairs : List (String × String)) (st : MetricsState),
      (pairs.foldl (metricsPair g1 g2) st).scores.length
          + (pairs.foldl (metricsPair g1 g2) st).u1
          + (pairs.foldl (metricsPair g1 g2) st).u2
        = st.scores.length + st.u1 + st.u2 + pairs.length
          + pairs.countP (bothEmpty g1 g2) := by
  intro pairs
  induction pairs with
  | nil => intro st; simp
  | cons pr pairs ih =>
    intro st
    rw [List.foldl_cons, List.countP_cons, List.length_cons, ih (metricsPair g1 g2 st pr),
      metricsPair_count]
    by_cases hb : bothEmpty g1 g2 pr <;> simp [hb] <;> omega

lemma calculateAlignmentScore_fields (pairs : List (String × String)) (g1 g2 : GoDict) :
    (calculateAlignmentScore pairs g1 g2).scored_pairs
        = (pairs.foldl (metricsPair g1 g2) ⟨[], 0, 0⟩).scores.length ∧
    (calculateAlignmentScore pairs g1 g2).unmappable_1
        = (pairs.foldl (metricsPair g1 g2) ⟨[], 0, 0⟩).u1 ∧
    (calculateAlignmentScore pairs g1 g2).unmappable_2
        = (pairs.foldl (metricsPair g1 g2) ⟨[], 0, 0⟩).u2 ∧
    (calculateAlignmentScore pairs g1 g2).total_pairs = pairs.length := by
  rw [calculateAlignmentScore]
  split
  · rename_i hsc
    simp [hsc]
  · simp

/-- C1 counterexample: a single pair absent from both annotation maps yields
`scored_pairs = 0`, `unmappable_1 = 1`, `unmappable_2 = 1` and `total_pairs = 1`
in `AlignmentMetrics.calculate_alignment_score`, so
`scored_pairs + unmappable_1 + unmappable_2 = 2 ≠ 1 = total_pairs`. -/
theorem claim_C1_counterexample :
    (calculateAlignmentScore [("a", "b")] [] []).scored_pairs
      + (calculateAlignmentScore [("a", "b")] [] []).unmappable_1
      + (calculateAlignmentScore [("a", "b")] [] []).unmappable_2
    ≠ (calculateAlignmentScore [("a", "b")] [] []).total_pairs := by decide

/-- C1 (amended): in `AlignmentMetrics.calculate_alignment_score`,
`scored_pairs + unmappable_1 + unmappable_2` equals `total_pairs` PLUS the
number of pairs that are unmappable on both sides (such a pair increments both
counters); the claimed equality holds exactly when no pair is doubly
unmappable. (In `NetworkAlignmentScorer.score_alignment` the reported
`scored_pairs` is defined as `total_pairs - unmappable_1 - unmappable_2`, so
the equation holds there by construction.) -/
theorem claim_C1_amended (pairs : List (String × String)) (g1 g2 : GoDict) :
    (calculateAlignmentScore pairs g1 g2).scored_pairs
      + (calculateAlignmentScore pairs g1 g2).unmappable_1
      + (calculateAlignmentScore pairs g1 g2).unmappable_2
    = (calculateAlignmentScore pairs g1 g2).total_pairs
      + pairs.countP (bothEmpty g1 g2) := by
  obtain ⟨h1, h2, h3, h4⟩ := calculateAlignmentScore_fields pairs g1 g2
  rw [h1, h2, h3, h4, metricsFold_count]
  simp

/-! ## Claim C8: the reported mean score -/

/-- C8 counterexample: an alignment file whose lines all start with `#` is
excluded from `total_pairs` but still processed by `compute_score`, so
`scored_pairs` becomes negative: here the run returns `scored_pairs = -1`,
`total_score = 1` and `mean_score = 0.0`, while the claim requires
`mean_score = total_score / scored_pairs = -1`. -/
theorem claim_C8_counterexample :
    (scoreAlignment [("# #"), ("#x #x")] [("z # GO:1")] [] [("Ensembl_ID Alt"), ("# #")]
        [("Ensembl_ID Alt")]).map (fun r => (r.scored_pairs, r.mean_score))
      = some (-1, 0) ∧
    (scoreAlignment [("# #"), ("#x #x")] [("z # GO:1")] [] [("Ensembl_ID Alt"), ("# #")]
        [("Ensembl_ID Alt")]).map (fun r => r.total_score) = some 1 ∧
    ¬ ((0 : ℚ) = (1 : ℚ) / (((-1 : Int) : ℚ))) := by
  refine ⟨by decide, ?_, by norm_num⟩
  have h : (scoreAlignment [("# #"), ("#x #x")] [("z # GO:1")] []
        [("Ensembl_ID Alt"), ("# #")] [("Ensembl_ID Alt")]).map (fun r => r.total_score)
      = some ((0 : ℚ) + ((({"1"} : Finset String) ∩ {"1"}).card : ℚ)
          / ((({"1"} : Finset String) ∪ {"1"}).card : ℚ)) := rfl
  rw [h]
  norm_num

/-- C8 (amended): the mean reported by `score_alignment` equals
`total_score / scored_pairs` when `scored_pairs > 0` and `0.0` otherwise; in
particular it is `0.0` when `scored_pairs = 0`, and the division is never
performed with a non-positive divisor. (`scored_pairs` can be negative: lines
starting with `#` are processed by `compute_score` but excluded from
`total_pairs`, and then `mean_score` is `0.0` rather than the quotient.) -/
theorem claim_C8_amended (a g1 g2 m1 m2 : List String) (r : RunResults)
    (h : scoreAlignment a g1 g2 m1 m2 = some r) :
    r.mean_score = (if r.scored_pairs > 0
        then r.total_score / ((r.scored_pairs : ℚ)) else 0) ∧
    (r.scored_pairs = 0 → r.mean_score = 0) := by
  simp only [scoreAlignment, Bind.bind] at h
  obtain ⟨ml1, hml1, h⟩ := Option.bind_eq_some.mp h
  obtain ⟨ml2, hml2, h⟩ := Option.bind_eq_some.mp h
  obtain ⟨gd1, hgd1, h⟩ := Option.bind_eq_some.mp h
  obtain ⟨gd2, hgd2, h⟩ := Option.bind_eq_some.mp h
  obtain ⟨st, hst, h⟩ := Option.bind_eq_some.mp h
  injection h with h'
  subst h'
  constructor
  · rfl
  · intro h0
    have h0' : ((countTotalPairs a : Int) - (st.u1 : Int) - (st.u2 : Int)) = 0 := h0
    simp [h0']

/-- C8 witness: the empty run has `scored_pairs = 0` and reports mean `0.0`
through the guarded branch. -/
theorem claim_C8_witness :
    ((0 : ℚ) = if ((0 : Int) > 0) then ((0 : ℚ)) / (((0 : Int) : ℚ)) else 0) ∧
    ((0 : Int) = 0 → (0 : ℚ) = 0) :=
  claim_C8_amended [] [] [] [] [] ⟨0, 0, 0, 0, 0, 0, 0⟩ rfl

/-! ## Claim C9: missing input files abort each stage -/

/-- C9: a path absent from the file system makes each stage — mapping-table
build, GO-annotation build, alignment scoring — fail immediately with the
file-not-found error, and the whole `score_alignment` run aborts with that same
error (no partial result is produced: the stage returns only the error). -/
theorem claim_C9 (fs : FileSys) (p : String) (ml : List Dict) (d1 d2 : GoDict)
    (aP g1P g2P m2P : String)
    (h : fsLookup fs p = none) :
    getMappingAt fs p = .error .fileNotFound ∧
    getGoTermsAt fs ml p = .error .fileNotFound ∧
    computeScoreAt fs d1 d2 p = .error .fileNotFound ∧
    scoreAlignmentAt fs aP g1P g2P p m2P = .error .fileNotFound := by
  refine ⟨?_, ?_, ?_, ?_⟩
  · rw [getMappingAt, h]
  · rw [getGoTermsAt, h]
  · rw [computeScoreAt, h]
  · simp only [scoreAlignmentAt, Bind.bind, getMappingAt, h]
    rfl

/-- C9 witness: the three stages and the pipeline on an empty file system. -/
theorem claim_C9_witness :
    getMappingAt [] ("m") = .error .fileNotFound ∧
    getGoTermsAt [] [] ("m") = .error .fileNotFound ∧
    computeScoreAt [] [] [] ("m") = .error .fileNotFound ∧
    scoreAlignmentAt [] ("a") ("b") ("c") ("m") ("e") = .error .fileNotFound :=
  claim_C9 [] ("m") [] [] [] ("a") ("b") ("c") ("e") rfl

/-! ## Claim C7: duplicate mapping keys, last occurrence wins -/

lemma setAt_get? (f : Dict → Dict) :
    ∀ (ml : List Dict) (i p : Nat),
      (setAt ml i f).get? p = if i = p then (ml.get? p).map f else ml.get? p := by
  intro ml
  induction ml with
  | nil => intro i p; cases i <;> simp [setAt]
  | cons d ds ih =>
    intro i p
    cases i with
    | zero =>
      cases p with
      | zero => simp [setAt]
      | succ p' => simp [setAt]
    | succ i' =>
      cases p with
      | zero => simp [setAt]
      | succ p' => simpa [setAt] using ih i' p'

lemma foldl_setAt_range'_get? (x : List String) (v : String) :
    ∀ (n a : Nat) (ml : List Dict) (p : Nat), 1 ≤ a →
      (((List.range' a n).foldl
          (fun ml i => setAt ml (i - 1) (fun d => dictInsert d (x.getD i ("")) v)) ml).get? p)
        = if a ≤ p + 1 ∧ p + 1 < a + n
          then (ml.get? p).map (fun d => dictInsert d (x.getD (p + 1) "") v)
          else ml.get? p := by
  intro n
  induction n with
  | zero =>
    intro a ml p ha
    rw [if_neg (by omega)]
    rfl
  | succ n ih =>
    intro a ml p ha
    rw [List.range'_succ, List.foldl_cons, ih (a + 1) _ p (by omega)]
    by_cases hp : a = p + 1
    · subst hp
      rw [if_neg (by omega : ¬ (p + 1 + 1 ≤ p + 1 ∧ p + 1 < p + 1 + 1 + n))]
      rw [setAt_get?, if_pos (by omega : p + 1 - 1 = p)]
      rw [if_pos (by omega : p + 1 ≤ p + 1 ∧ p + 1 < p + 1 + (n + 1))]
    · have hne : ¬ (a - 1 = p) := by omega
      rw [setAt_get?, if_neg hne]
      by_cases hc : a ≤ p + 1 ∧ p + 1 < a + (n + 1)
      · rw [if_pos (by omega : a + 1 ≤ p + 1 ∧ p + 1 < a + 1 + n), if_pos hc]
      · rw [if_neg (by omega : ¬ (a + 1 ≤ p + 1 ∧ p + 1 < a + 1 + n)), if_neg hc]

lemma fillFold_get? (x : List String) (v : String) (ml : List Dict) (p : Nat) :
    (fillFold x v ml).get? p =
      if p + 1 < x.length
      then (ml.get? p).map (fun d => dictInsert d (x.getD (p + 1) "") v)
      else ml.get? p := by
  rw [fillFold, foldl_setAt_range'_get? x v (x.length - 1) 1 ml p (by omega)]
  by_cases h : p + 1 < x.length
  · rw [if_pos (by omega : 1 ≤ p + 1 ∧ p + 1 < 1 + (x.length - 1)), if_pos h]
  · rw [if_neg (by omega : ¬ (1 ≤ p + 1 ∧ p + 1 < 1 + (x.length - 1))), if_neg h]

lemma dictLookup_insert (d : Dict) (k v c : String) :
    dictLookup (dictInsert d k v) c = if k = c then some v else dictLookup d c := by
  rw [dictInsert, dictLookup, List.find?_cons]
  by_cases h : k = c
  · simp [h]
  · simp [h, dictLookup]

lemma setAt_length (f : Dict → Dict) :
    ∀ (ml : List Dict) (i : Nat), (setAt ml i f).length = ml.length := by
  intro ml
  induction ml with
  | nil => intro i; cases i <;> rfl
  | cons d ds ih =>
    intro i
    cases i with
    | zero => rfl
    | succ i' => simp [setAt, ih]

lemma foldl_setAt_length (x : List String) (v : String) :
    ∀ (is : List Nat) (ml : List Dict),
      ((is.foldl (fun ml i => setAt ml (i - 1)
          (fun d => dictInsert d (x.getD i ("")) v)) ml)).length = ml.length := by
  intro is
  induction is with
  | nil => intro ml; rfl
  | cons i is ih => intro ml; rw [List.foldl_cons, ih, setAt_length]

lemma mapLine_length (header line : String) (ml ml' : List Dict)
    (h : mapLine header ml line = some ml') : ml'.length = ml.length := by
  simp only [mapLine] at h
  split at h
  · injection h with h'
    rw [← h']
  · split at h
    · cases h
    · split at h
      · injection h with h'
        rw [← h', fillFold, foldl_setAt_length]
      · injection h with h'
        rw [← h']

lemma mapFold_length (header : String) :
    ∀ (lines : List String) (ml0 ml : List Dict),
      List.foldlM (mapLine header) ml0 lines = some ml → ml.length = ml0.length := by
  intro lines
  induction lines with
  | nil =>
    intro ml0 ml h
    injection h with h'
    rw [← h']
  | cons l lines ih =>
    intro ml0 ml h
    rw [List.foldlM_cons] at h
    cases hstep : mapLine header ml0 l with
    | none => rw [hstep] at h; simp at h
    | some ml1 =>
      rw [hstep] at h
      rw [ih ml1 ml (by simpa using h), mapLine_length header l ml0 ml1 hstep]

/-- A mapping-file line contributes the binding `k -> first token` to the
lookup map at position `p` exactly when it is not the header, its token count
matches the header's, and its token at index `p + 1` is `k`. -/
def contributes (header : String) (p : Nat) (k : String) (line : String) : Bool :=
  decide (¬ line = header) && decide ((pySplit line).length = (pySplit header).length)
    && decide ((pySplit line).getD (p + 1) ("") = k)

lemma mapLine_lookup (header line : String) (ml ml' : List Dict) (p : Nat) (k : String)
    (hp : p + 1 < (pySplit header).length)
    (h : mapLine header ml line = some ml') (d d' : Dict)
    (hd : ml.get? p = some d) (hd' : ml'.get? p = some d') :
    dictLookup d' k =
      if contributes header p k line then some ((pySplit line).headD (""))
      else dictLookup d k := by
  simp only [mapLine] at h
  split at h
  · rename_i hline
    injection h with h'
    subst h'
    rw [hd] at hd'
    injection hd' with hdd
    subst hdd
    simp [contributes, hline]
  · rename_i hline
    split at h
    · cases h
    · rename_i value rest' hsplit
      split at h
      · rename_i hlen
        injection h with h'
        rw [← h', fillFold_get?] at hd'
        have hplen : p + 1 < (pySplit line).length := by
          rw [hlen]
          exact hp
        rw [if_pos hplen, hd] at hd'
        injection hd' with hdd
        subst hdd
        rw [dictLookup_insert]
        have hcon : contributes header p k line
            = decide ((pySplit line).getD (p + 1) ("") = k) := by
          simp [contributes, hline, hlen]
        rw [hcon]
        by_cases hk : (pySplit line).getD (p + 1) ("") = k
        · rw [if_pos hk, if_pos (by simp only [decide_eq_true_eq]; exact hk)]
          rw [hsplit]
          rfl
        · rw [if_neg hk, if_neg (by simp only [decide_eq_true_eq]; exact hk)]
      · rename_i hlen
        injection h with h'
        subst h'
        rw [hd] at hd'
        injection hd' with hdd
        subst hdd
        simp [contributes, hlen]

lemma mapFold_lookup (header : String) (p : Nat) (k : String)
    (hp : p + 1 < (pySplit header).length) :
    ∀ (lines : List String) (ml : List Dict) (d : Dict),
      List.foldlM (mapLine header)
          (List.replicate ((pySplit header).length - 1) ([] : Dict)) lines = some ml →
      ml.get? p = some d →
      dictLookup d k = (lines.reverse.find? (contributes header p k)).map
        (fun l => (pySplit l).headD ("")) := by
  intro lines
  induction lines using List.reverseRecOn with
  | nil =>
    intro ml d h hd
    have h' := Option.some.inj h
    rw [← h'] at hd
    have hdm : d ∈ List.replicate ((pySplit header).length - 1) ([] : Dict) :=
      List.get?_mem hd
    have hde : d = ([] : Dict) := List.eq_of_mem_replicate hdm
    subst hde
    rfl
  | append_singleton lines l ih =>
    intro ml d h hd
    rw [List.foldlM_append] at h
    obtain ⟨ml1, h1, h2⟩ := Option.bind_eq_some.mp (by simpa using h)
    have h2' : mapLine header ml1 l = some ml := by
      simpa using h2
    have hlenml : ml.length = ml1.length := mapLine_length header l ml1 ml h2'
    have hplt : p < ml1.length := by
      by_contra hnp
      rw [not_lt] at hnp
      rw [List.get?_eq_none.mpr (by omega)] at hd
      cases hd
    have hd1 : ml1.get? p = some (ml1.get ⟨p, hplt⟩) := List.get?_eq_get hplt
    have hrev : (lines ++ [l]).reverse = l :: lines.reverse := by
      simp
    rw [hrev]
    by_cases hcl : contributes header p k l
    · rw [mapLine_lookup header l ml1 ml p k hp h2' (ml1.get ⟨p, hplt⟩) d hd1 hd,
        if_pos hcl, List.find?_cons_of_pos _ hcl]
      rfl
    · rw [mapLine_lookup header l ml1 ml p k hp h2' (ml1.get ⟨p, hplt⟩) d hd1 hd,
        if_neg hcl, List.find?_cons_of_neg _ hcl]
      exact ih ml1 (ml1.get ⟨p, hplt⟩) h1 hd1

/-- C7: in the table built by `get_mapping`, the lookup map at position `p`
sends a key `k` to the canonical identifier (first token) of the LAST line, in
file order, that contributes `k` at column `p + 1` (a later insertion
overwrites an earlier value); the lookup misses when no line contributes `k`. -/
theorem claim_C7 (header : String) (lines : List String) (ml : List Dict)
    (p : Nat) (k : String) (d : Dict)
    (hml : getMapping (header :: lines) = some ml)
    (hd : ml.get? p = some d) :
    dictLookup d k
      = (lines.reverse.find? (contributes header p k)).map
          (fun l => (pySplit l).headD ("")) := by
  have hml' : List.foldlM (mapLine header)
      (List.replicate ((pySplit header).length - 1) ([] : Dict)) lines = some ml := hml
  have hlen : ml.length = (pySplit header).length - 1 := by
    rw [mapFold_length header lines _ ml hml', List.length_replicate]
  have hplt : p < ml.length := by
    by_contra hnp
    rw [not_lt] at hnp
    rw [List.get?_eq_none.mpr (by omega)] at hd
    cases hd
  exact mapFold_lookup header p k (by omega) lines ml d hml' hd

/-- C7 witness: two data lines share the alternate key `a`; the built lookup
map returns the canonical identifier of the second (last) line. -/
theorem claim_C7_witness :
    dictLookup [("a", "E2"), ("a", "E1")] ("a") = some ("E2") := by
  have h := claim_C7 ("Ensembl_ID Sym") [("E1 a"), ("E2 a")] [[("a", "E2"), ("a", "E1")]]
    0 ("a") [("a", "E2"), ("a", "E1")] (by decide) (by decide)
  rw [h]
  decide

end NetAlign
